import Mathlib

/-!
Verification development for the as-me memory lifecycle engine.

Shallow embedding of the Python modules under `src/as_me/memory/`
(`models.py`, `confidence.py`, `decay.py`, `strengthening.py`,
`tier_manager.py`, `retriever.py`, `store.py`) and
`src/as_me/storage/json_store.py`.

Modelling conventions:
* timestamps are rationals counting seconds (a `datetime` difference via
  `total_seconds()` becomes rational subtraction; the Python `.days`
  attribute of a timedelta is the floor of the elapsed seconds divided
  by 86400);
* float arithmetic is idealised as real arithmetic (`ℝ`);
* the ambient `datetime.now()` used by several methods is made an
  explicit `now` parameter;
* in-place mutation of a `MemoryAtom` becomes a functional update, and
  the file-backed `MemoryStore` is a record of the three per-tier lists.
-/

open scoped Classical

noncomputable section

namespace AsMe

/-- Memory types as referenced by `retriever.py` (`TYPE_WEIGHTS`) and
`extraction/session_extractor.py`.  NOTE: `memory/models.py` declares the
enum `MemoryType` with the four values recorded in
`modelsMemoryTypeValues` below, which are disjoint from these five
member names; the modules above nevertheless reference the five members
of this inductive.  The remaining claims concern the retriever, so the
embedding uses its five members. -/
inductive MemoryType where
  | identity
  | value
  | thinking
  | preference
  | communication
deriving DecidableEq

/-- The value strings of the `MemoryType` enum actually declared in
`memory/models.py` (TECH_PREFERENCE, THINKING_PATTERN, LANGUAGE_STYLE,
BEHAVIOR_HABIT). -/
def modelsMemoryTypeValues : List String :=
  ["tech_preference", "thinking_pattern", "language_style", "behavior_habit"]

/-- The five memory-type values the specification (and `retriever.py`
via `MemoryType.IDENTITY` etc.) assume to be the enum domain. -/
def claimedMemoryTypeValues : List String :=
  ["identity", "value", "thinking", "preference", "communication"]

/-- Memory tiers, `memory/models.py` `MemoryTier`. -/
inductive MemoryTier where
  | short_term
  | working
  | long_term
deriving DecidableEq

/-- `memory/models.py` `MemoryAtom` (pydantic model).  Fields not used by
any claim (`related_principle_id`) are omitted. -/
structure MemoryAtom where
  id : String
  type : MemoryType
  content : String
  confidence : ℝ
  tier : MemoryTier
  created_at : ℚ
  last_triggered_at : ℚ
  trigger_count : ℕ
  source_session_id : String
  tags : List String

/-- Python timedelta `.days`: floor of the elapsed seconds over 86400. -/
def elapsedDaysFloor (fromTime toTime : ℚ) : ℤ :=
  Int.floor ((toTime - fromTime) / 86400)

/-! ## decay.py -/

/-- `decay.py` `TIER_DECAY_FACTORS` (with the `.get(tier, 1.0)` default
never needed: all three tiers are keys). -/
def tierDecayFactor : MemoryTier → ℚ
  | .short_term => 1
  | .working => 0.5
  | .long_term => 0.25

/-- `decay.py` `MIN_CONFIDENCE_THRESHOLDS`. -/
def minConfidenceThreshold : MemoryTier → ℝ
  | .short_term => 0.3
  | .working => 0.2
  | .long_term => 0.1

/-- `MemoryDecay.calculate_decay(memory, reference_time)`:
elapsed days are fractional (`total_seconds() / (24*3600)`); if no time
has passed the stored confidence is returned unchanged; otherwise
`confidence * 0.5 ^ (days / (half_life / tier_factor))`, clamped.  The
engine parameter `half_life_days` is passed explicitly. -/
def calculateDecay (halfLifeDays : ℚ) (memory : MemoryAtom) (referenceTime : ℚ) : ℝ :=
  if (referenceTime - memory.last_triggered_at) / 86400 ≤ 0 then memory.confidence
  else
    max 0 (min 1 (memory.confidence *
      (0.5 : ℝ) ^ ((((referenceTime - memory.last_triggered_at) / 86400 : ℚ) : ℝ) /
        ((halfLifeDays / tierDecayFactor memory.tier : ℚ) : ℝ))))

/-- `MemoryDecay.apply_decay`: stores the decayed value back into the
atom. -/
def applyDecay (halfLifeDays : ℚ) (memory : MemoryAtom) (referenceTime : ℚ) : MemoryAtom :=
  { memory with confidence := calculateDecay halfLifeDays memory referenceTime }

/-- `MemoryDecay.should_remove`: stored confidence strictly below the
tier threshold. -/
def shouldRemove (memory : MemoryAtom) : Prop :=
  memory.confidence < minConfidenceThreshold memory.tier

/-- `MemoryDecay.process_batch(memories, reference_time)`: decay each
atom in place, then partition into (to_keep, to_remove) preserving list
order. -/
def processBatch (halfLifeDays : ℚ) (referenceTime : ℚ) :
    List MemoryAtom → List MemoryAtom × List MemoryAtom
  | [] => ([], [])
  | memory :: rest =>
    let decayed := applyDecay halfLifeDays memory referenceTime
    let tail := processBatch halfLifeDays referenceTime rest
    if shouldRemove decayed then (tail.1, decayed :: tail.2)
    else (decayed :: tail.1, tail.2)

/-! ## confidence.py -/

/-- `confidence.apply_time_decay(memory, half_life_days)`: uses the
integer `.days` of `now - last_triggered_at` and
`exp(-0.693 * days / half_life_days)`; note there is no tier factor and
no clamping here. -/
def applyTimeDecay (memory : MemoryAtom) (halfLifeDays : ℚ) (now : ℚ) : ℝ :=
  let daysSinceTrigger : ℤ := elapsedDaysFloor memory.last_triggered_at now
  memory.confidence * Real.exp (-(0.693) * (daysSinceTrigger : ℝ) / (halfLifeDays : ℝ))

/-! ## strengthening.py -/

/-- The three tunables of `MemoryStrengthening.__init__`. -/
structure MemoryStrengthening where
  base_boost : ℝ
  pattern_boost : ℝ
  max_boost : ℝ

/-- Module-level defaults `BASE_TRIGGER_BOOST`, `PATTERN_MATCH_BOOST`,
`MAX_BOOST_PER_TRIGGER`. -/
def defaultStrengthening : MemoryStrengthening :=
  { base_boost := 0.05, pattern_boost := 0.1, max_boost := 0.15 }

/-- `MemoryStrengthening._check_tier_upgrade`, using the inline
`TIER_UPGRADE_THRESHOLDS` of `strengthening.py` (0.6/3 and 0.8/7). -/
def checkTierUpgrade (memory : MemoryAtom) : MemoryAtom :=
  match memory.tier with
  | .long_term => memory
  | .short_term =>
    if memory.confidence ≥ 0.6 ∧ memory.trigger_count ≥ 3 then
      { memory with tier := .working }
    else memory
  | .working =>
    if memory.confidence ≥ 0.8 ∧ memory.trigger_count ≥ 7 then
      { memory with tier := .long_term }
    else memory

/-- `MemoryStrengthening.trigger(memory, pattern_matched, trigger_time)`:
debounce window `MIN_TRIGGER_INTERVAL_HOURS = 1` (3600 seconds); boost =
(base [+ pattern]) scaled by `1/(1 + trigger_count*0.1)` then capped at
`max_boost`; confidence capped at 1; then the inline tier-upgrade
check runs. -/
def strengthTrigger (eng : MemoryStrengthening) (memory : MemoryAtom)
    (patternMatched : Bool) (triggerTime : ℚ) : MemoryAtom :=
  if triggerTime - memory.last_triggered_at < 3600 then
    { memory with last_triggered_at := triggerTime }
  else
    let boost0 : ℝ := eng.base_boost + (if patternMatched then eng.pattern_boost else 0)
    let diminishingFactor : ℝ := 1 / (1 + (memory.trigger_count : ℝ) * 0.1)
    let boost : ℝ := min (boost0 * diminishingFactor) eng.max_boost
    let updated : MemoryAtom :=
      { memory with
        confidence := min 1 (memory.confidence + boost)
        trigger_count := memory.trigger_count + 1
        last_triggered_at := triggerTime }
    checkTierUpgrade updated

/-! ## tier_manager.py -/

/-- `TierManager.DELETE_THRESHOLDS` confidence floors. -/
def deleteMaxConfidence : MemoryTier → ℝ
  | .short_term => 0.3
  | .working => 0.2
  | .long_term => 0.1

/-- `TierManager.DELETE_THRESHOLDS` inactivity windows in days. -/
def deleteInactiveDays : MemoryTier → ℤ
  | .short_term => 3
  | .working => 14
  | .long_term => 90

/-- `TierManager.check_delete(memory)`: computes the decayed confidence
via `confidence.apply_time_decay` (plain half-life, no tier factor) and
the integer days of inactivity, with `datetime.now()` made the explicit
`now`. -/
def checkDelete (halfLifeDays : ℚ) (memory : MemoryAtom) (now : ℚ) : Prop :=
  if applyTimeDecay memory halfLifeDays now ≥ deleteMaxConfidence memory.tier then False
  else if elapsedDaysFloor memory.last_triggered_at now < deleteInactiveDays memory.tier then False
  else True

/-- Decayed confidence computed the way claim C5 states it: with the
tier-adjusted half-life `half_life / tier_factor` (this definition
follows the words of the claim, for comparison with `checkDelete`;
the source applies no tier factor at this call site). -/
def claimDecayedConfidence (halfLifeDays : ℚ) (memory : MemoryAtom) (now : ℚ) : ℝ :=
  let daysSinceTrigger : ℤ := elapsedDaysFloor memory.last_triggered_at now
  let adjustedHalfLife : ℚ := halfLifeDays / tierDecayFactor memory.tier
  memory.confidence * Real.exp (-(0.693) * (daysSinceTrigger : ℝ) / (adjustedHalfLife : ℝ))

/-- The deletion condition exactly as claim C5 words it: tier-adjusted
decayed confidence below the tier floor AND inactivity at least the
tier window. -/
def claimCheckDelete (halfLifeDays : ℚ) (memory : MemoryAtom) (now : ℚ) : Prop :=
  claimDecayedConfidence halfLifeDays memory now < deleteMaxConfidence memory.tier ∧
    elapsedDaysFloor memory.last_triggered_at now ≥ deleteInactiveDays memory.tier

/-! ## store.py -/

/-- The file-backed `MemoryStore`: one JSON list per tier
(`short-term.json`, `working.json`, `long-term.json`), here as the three
validated atom lists. -/
structure MemoryStore where
  short_term : List MemoryAtom
  working : List MemoryAtom
  long_term : List MemoryAtom

/-- `MemoryStore._load_tier`. -/
def tierList (s : MemoryStore) : MemoryTier → List MemoryAtom
  | .short_term => s.short_term
  | .working => s.working
  | .long_term => s.long_term

/-- `MemoryStore._save_tier`. -/
def setTierList (s : MemoryStore) (t : MemoryTier) (l : List MemoryAtom) : MemoryStore :=
  match t with
  | .short_term => { s with short_term := l }
  | .working => { s with working := l }
  | .long_term => { s with long_term := l }

/-- All atoms in tier iteration order (SHORT_TERM, WORKING, LONG_TERM),
the order `for tier in MemoryTier` walks. -/
def allAtoms (s : MemoryStore) : List MemoryAtom :=
  s.short_term ++ s.working ++ s.long_term

/-- `MemoryStore.get_by_id`: scan the tiers in order, first id match. -/
def getById (s : MemoryStore) (memoryId : String) : Option MemoryAtom :=
  (allAtoms s).find? (fun m => m.id == memoryId)

/-- `MemoryStore._remove_from_tier` (state effect only; the boolean
result is whether the list shrank). -/
def removeFromTier (s : MemoryStore) (memoryId : String) (t : MemoryTier) : MemoryStore :=
  setTierList s t ((tierList s t).filter (fun m => m.id != memoryId))

/-- The replace-first-or-append loop of `MemoryStore.save` on one tier
list. -/
def saveInTier (memory : MemoryAtom) : List MemoryAtom → List MemoryAtom
  | [] => [memory]
  | x :: rest => if x.id == memory.id then memory :: rest else x :: saveInTier memory rest

/-- `MemoryStore.save`: upsert into the file of the atom's own tier. -/
def storeSave (s : MemoryStore) (memory : MemoryAtom) : MemoryStore :=
  setTierList s memory.tier (saveInTier memory (tierList s memory.tier))

/-- `MemoryStore.trigger(memory_id)`: look the atom up; on a miss return
`None` and touch nothing; otherwise refresh `last_triggered_at` (to
`datetime.now()`, the explicit `now`), increment `trigger_count`, and
save. -/
def storeTrigger (s : MemoryStore) (memoryId : String) (now : ℚ) :
    Option MemoryAtom × MemoryStore :=
  match getById s memoryId with
  | none => (none, s)
  | some memory =>
    let updated : MemoryAtom :=
      { memory with last_triggered_at := now, trigger_count := memory.trigger_count + 1 }
    (some updated, storeSave s updated)

/-- The write sequence of `MemoryStore.update` when the tier changed
(the cross-tier promotion path): the initial state, the state after
`_remove_from_tier` on the old tier, and the state after `save` into the
new tier.  Each list entry is a durably visible on-disk state. -/
def updateStates (s : MemoryStore) (memory : MemoryAtom) (oldTier : MemoryTier) :
    List MemoryStore :=
  let mid := removeFromTier s memory.id oldTier
  [s, mid, storeSave mid memory]

/-- Whether the collection of tier `t` contains an atom with this id. -/
def tierHas (s : MemoryStore) (t : MemoryTier) (memoryId : String) : Bool :=
  (tierList s t).any (fun m => m.id == memoryId)

/-- In how many of the three tier collections the id appears. -/
def tiersContaining (s : MemoryStore) (memoryId : String) : ℕ :=
  (if tierHas s .short_term memoryId then 1 else 0) +
    (if tierHas s .working memoryId then 1 else 0) +
    (if tierHas s .long_term memoryId then 1 else 0)

/-- Sort keys of `QueryOptions.sort_by`. -/
inductive SortBy where
  | confidence
  | created_at
  | last_triggered_at
deriving DecidableEq

/-- `store.py` `QueryOptions` with its defaults. -/
structure QueryOptions where
  limit : ℕ := 100
  offset : ℕ := 0
  min_confidence : ℝ := 0
  tier : Option MemoryTier := none
  memory_type : Option MemoryType := none
  sort_by : SortBy := .confidence
  sort_desc : Bool := true

/-- The type filter of `get_all`: skip when a type is requested and the
atom's differs. -/
def optTypeMismatch (mt : Option MemoryType) (memory : MemoryAtom) : Prop :=
  ∃ t, mt = some t ∧ memory.type ≠ t

/-- The collection loop of `get_all`: drop atoms below `min_confidence`
(the stored value) or of the wrong type, keeping order. -/
def collectAtoms (opts : QueryOptions) : List MemoryAtom → List MemoryAtom
  | [] => []
  | memory :: rest =>
    if memory.confidence < opts.min_confidence then collectAtoms opts rest
    else if optTypeMismatch opts.memory_type memory then collectAtoms opts rest
    else memory :: collectAtoms opts rest

/-- The sort key of `get_all` as a real number (timestamps cast). -/
def sortKeyVal (opts : QueryOptions) (memory : MemoryAtom) : ℝ :=
  match opts.sort_by with
  | .confidence => memory.confidence
  | .created_at => (memory.created_at : ℝ)
  | .last_triggered_at => (memory.last_triggered_at : ℝ)

/-- The comparison of the stable Python sort: non-strict on the chosen
key, descending when `sort_desc` (equal keys keep insertion order). -/
def sortRel (opts : QueryOptions) (a b : MemoryAtom) : Prop :=
  if opts.sort_desc then sortKeyVal opts b ≤ sortKeyVal opts a
  else sortKeyVal opts a ≤ sortKeyVal opts b

/-- `MemoryStore.get_all(options)` on an already-validated store: load
the requested tiers in order, filter, stable-sort, then slice
`[offset : offset+limit]`. -/
def getAllAtoms (s : MemoryStore) (opts : QueryOptions) : List MemoryAtom :=
  let pool := match opts.tier with
    | some t => tierList s t
    | none => allAtoms s
  let filtered := collectAtoms opts pool
  let sorted := List.insertionSort (sortRel opts) filtered
  (sorted.drop opts.offset).take opts.limit

/-! ## retriever.py -/

/-- `MemoryRetriever.TIER_WEIGHTS`. -/
def tierWeight : MemoryTier → ℝ
  | .long_term => 1.0
  | .working => 0.8
  | .short_term => 0.5

/-- `MemoryRetriever.TYPE_WEIGHTS` as written in `retriever.py` (its
keys are the five members this embedding gives `MemoryType`; see the
note on `MemoryType`). -/
def typeWeight : MemoryType → ℝ
  | .identity => 1.0
  | .value => 0.95
  | .thinking => 0.9
  | .preference => 0.8
  | .communication => 0.7

/-- `ScoredMemory`. -/
structure ScoredMemory where
  memory : MemoryAtom
  relevance_score : ℝ

/-- Python `str.split()` (whitespace runs, no empty words). -/
def pyWords (s : String) : List String :=
  (s.split (fun c => c.isWhitespace)).filter (fun w => w ≠ "")

/-- The `memory_words` set of `_context_relevance`: lower-cased content
words plus lower-cased tags, de-duplicated. -/
def memoryWords (memory : MemoryAtom) : List String :=
  ((pyWords memory.content.toLower) ++ memory.tags.map String.toLower).dedup

/-- Python substring membership `w in s`. -/
def isSubstrOf (w s : String) : Prop :=
  ∃ pre post, s.data = pre ++ w.data ++ post

/-- The match count of `_context_relevance`. -/
def countContextMatches (ctxLower : String) : List String → ℕ
  | [] => 0
  | w :: rest =>
    (if isSubstrOf w ctxLower then 1 else 0) + countContextMatches ctxLower rest

/-- `MemoryRetriever._context_relevance`. -/
def contextRelevance (memory : MemoryAtom) (context : String) : ℝ :=
  let ctxLower := context.toLower
  let words := memoryWords memory
  let matchCount := countContextMatches ctxLower words
  if words = [] then 0 else min 1 ((matchCount : ℝ) / (words.length : ℝ))

/-- `MemoryRetriever._calculate_relevance(memory, context)`:
decayed confidence (via `confidence.apply_time_decay`) times tier and
type weights plus the capped trigger bonus; blended 0.7/0.3 with context
relevance when a context is given; capped at 1. -/
def calcRelevance (halfLifeDays : ℚ) (memory : MemoryAtom) (context : Option String)
    (now : ℚ) : ℝ :=
  let decayedConfidence := applyTimeDecay memory halfLifeDays now
  let score := decayedConfidence * tierWeight memory.tier * typeWeight memory.type +
    min 0.2 ((memory.trigger_count : ℝ) * 0.02)
  let blended := match context with
    | none => score
    | some ctx => score * 0.7 + contextRelevance memory ctx * 0.3
  min 1 blended

/-- The scoring loop of `retrieve_relevant`: keep atoms with a strictly
positive score, in order. -/
def scoreMems (halfLifeDays : ℚ) (context : Option String) (now : ℚ) :
    List MemoryAtom → List ScoredMemory
  | [] => []
  | memory :: rest =>
    let sc := calcRelevance halfLifeDays memory context now
    if 0 < sc then ⟨memory, sc⟩ :: scoreMems halfLifeDays context now rest
    else scoreMems halfLifeDays context now rest

/-- The comparison of `scored.sort(key=relevance, reverse=True)`:
non-strict descending, so equal scores keep insertion order. -/
def scoreRel (a b : ScoredMemory) : Prop :=
  b.relevance_score ≤ a.relevance_score

/-- `MemoryRetriever.retrieve_relevant(limit, min_confidence, context)`:
fetch up to `limit*3` candidates above `min_confidence` (stored value),
score, drop non-positive scores, stable-sort descending, take `limit`,
then call `self.store.trigger` on each selected atom.  Returns the
selection and the store after the trigger side effects. -/
def retrieveRelevant (s : MemoryStore) (halfLifeDays : ℚ) (limit : ℕ)
    (minConfidence : ℝ) (context : Option String) (now : ℚ) :
    List ScoredMemory × MemoryStore :=
  let memories := getAllAtoms s { min_confidence := minConfidence, limit := limit * 3 }
  let scored := scoreMems halfLifeDays context now memories
  let sorted := List.insertionSort scoreRel scored
  let result := sorted.take limit
  let finalStore := result.foldl (fun st item => (storeTrigger st item.memory.id now).2) s
  (result, finalStore)

/-! ## Persisted records and validation (`json_store.py` + pydantic
load in `store.py`) -/

/-- A persisted JSON record as read back by `read_json`: fields that
pydantic requires may be absent or out of range.  JSON numbers are exact
decimals, hence `ℚ`. -/
structure RawRecord where
  id : String
  rawType : Option String
  content : String
  confidence : Option ℚ
  tier : Option String
  created_at : ℚ
  last_triggered_at : ℚ
  trigger_count : ℤ
  source_session_id : Option String
  tags : List String

/-- Value-string parsing for `MemoryType` (the five members the
retriever and extractor reference). -/
def parseMemoryType : String → Option MemoryType
  | "identity" => some .identity
  | "value" => some .value
  | "thinking" => some .thinking
  | "preference" => some .preference
  | "communication" => some .communication
  | _ => none

/-- Value-string parsing for `MemoryTier`. -/
def parseMemoryTier : String → Option MemoryTier
  | "short_term" => some .short_term
  | "working" => some .working
  | "long_term" => some .long_term
  | _ => none

/-- `MemoryAtom.model_validate`: pydantic validation of one record
against `memory/models.py` - `type` required and recognised, `content`
at most 500 characters, `confidence` required and within [0,1],
`tier` defaulting to short_term, `trigger_count` at least 0,
`source_session_id` required.  A violation raises
(`Except.error`). -/
def modelValidate (r : RawRecord) : Except String MemoryAtom := do
  let t ← match r.rawType with
    | none => Except.error "field type is required"
    | some s =>
      match parseMemoryType s with
      | none => Except.error "invalid memory type"
      | some t => Except.ok t
  if r.content.length > 500 then Except.error "content too long" else
  let c ← match r.confidence with
    | none => Except.error "field confidence is required"
    | some c =>
      if c < 0 ∨ 1 < c then Except.error "confidence out of range" else Except.ok c
  let tr ← match r.tier with
    | none => Except.ok MemoryTier.short_term
    | some s =>
      match parseMemoryTier s with
      | none => Except.error "invalid memory tier"
      | some tr => Except.ok tr
  if r.trigger_count < 0 then Except.error "trigger count negative" else
  let sid ← match r.source_session_id with
    | none => Except.error "field source session id is required"
    | some sid => Except.ok sid
  Except.ok
    { id := r.id
      type := t
      content := r.content
      confidence := (c : ℝ)
      tier := tr
      created_at := r.created_at
      last_triggered_at := r.last_triggered_at
      trigger_count := r.trigger_count.toNat
      source_session_id := sid
      tags := r.tags }

/-- The per-record validation loop inside `get_all`: the first record
whose `model_validate` raises aborts the whole load - records after it
(and atoms already validated) are discarded with the exception. -/
def loadValidated : List RawRecord → Except String (List MemoryAtom)
  | [] => Except.ok []
  | r :: rest =>
    match modelValidate r with
    | Except.error e => Except.error e
    | Except.ok m =>
      match loadValidated rest with
      | Except.error e => Except.error e
      | Except.ok ms => Except.ok (m :: ms)

/-- `MemoryStore.get_all` over the persisted (raw) tier files: validate
every record of every loaded tier, then filter/sort/slice as
`getAllAtoms`.  Any invalid record anywhere makes the whole call
raise. -/
def getAllRaw (rawShort rawWorking rawLong : List RawRecord) (opts : QueryOptions) :
    Except String (List MemoryAtom) :=
  let pooled : Except String (List MemoryAtom) :=
    match opts.tier with
    | some MemoryTier.short_term => loadValidated rawShort
    | some MemoryTier.working => loadValidated rawWorking
    | some MemoryTier.long_term => loadValidated rawLong
    | none =>
      match loadValidated rawShort with
      | Except.error e => Except.error e
      | Except.ok a =>
        match loadValidated rawWorking with
        | Except.error e => Except.error e
        | Except.ok b =>
          match loadValidated rawLong with
          | Except.error e => Except.error e
          | Except.ok c => Except.ok (a ++ b ++ c)
  match pooled with
  | Except.error e => Except.error e
  | Except.ok pool =>
    Except.ok (((List.insertionSort (sortRel opts) (collectAtoms opts pool)).drop
      opts.offset).take opts.limit)

/-- Whether an `Except` is the raising case. -/
def isBad {α : Type} : Except String α → Bool
  | Except.error _ => true
  | Except.ok _ => false

/-! ## Concrete fixtures used by counterexamples and witnesses -/

/-- A minimal well-formed atom. -/
def mkAtom (atomId : String) (conf : ℝ) (tier : MemoryTier) (lastTriggered : ℚ)
    (triggerCount : ℕ) : MemoryAtom :=
  { id := atomId
    type := .identity
    content := "x"
    confidence := conf
    tier := tier
    created_at := 0
    last_triggered_at := lastTriggered
    trigger_count := triggerCount
    source_session_id := "s"
    tags := [] }

/-- C1 fixture: full-confidence short-term atom last triggered 30 days
before the reference instant. -/
def atomC1 : MemoryAtom := mkAtom "a1" 1 .short_term 0 0

/-- C2 fixture: stored confidence 0.5, last triggered 60 days before the
evaluation instant. -/
def atomC2 : MemoryAtom := mkAtom "a2" 0.5 .short_term 0 0

/-- C2 fixture store. -/
def storeC2 : MemoryStore := ⟨[atomC2], [], []⟩

/-- C3 fixture: confidence 0.5, trigger_count 0, last triggered two
hours before the retrieval. -/
def atomC3 : MemoryAtom := mkAtom "a3" 0.5 .short_term 0 0

/-- C3 fixture store. -/
def storeC3 : MemoryStore := ⟨[atomC3], [], []⟩

/-- C5 fixture: working-tier atom, stored confidence 0.4, 45 days
inactive. -/
def atomC5 : MemoryAtom := mkAtom "a5" 0.4 .working 0 0

/-- C6 scenario atom: confidence 0.5, trigger_count 0. -/
def atomC6 : MemoryAtom := mkAtom "a6" 0.5 .short_term 0 0

/-- C7 fixture: a well-formed persisted record. -/
def rawGood (recId : String) : RawRecord :=
  { id := recId
    rawType := some "identity"
    content := "x"
    confidence := some 0.5
    tier := some "short_term"
    created_at := 0
    last_triggered_at := 0
    trigger_count := 0
    source_session_id := some "s"
    tags := [] }

/-- C7 fixture: a malformed persisted record (confidence 1.5, outside
[0,1]). -/
def rawBad : RawRecord :=
  { id := "bad"
    rawType := some "identity"
    content := "x"
    confidence := some 1.5
    tier := some "short_term"
    created_at := 0
    last_triggered_at := 0
    trigger_count := 0
    source_session_id := some "s"
    tags := [] }

/-- C8 fixture: the atom about to be promoted, as stored in short_term. -/
def atomC8 : MemoryAtom := mkAtom "a8" 0.7 .short_term 0 3

/-- C8 fixture: the same atom with its tier already set to working (the
argument `MemoryStore.update` receives). -/
def atomC8p : MemoryAtom := { atomC8 with tier := .working }

/-- C8 fixture store: the atom lives in short_term only. -/
def storeC8 : MemoryStore := ⟨[atomC8], [], []⟩

/-- C8: the on-disk state after `_remove_from_tier` and before `save`. -/
def storeC8mid : MemoryStore := ⟨[], [], []⟩

/-- C8: the on-disk state after the final `save`. -/
def storeC8fin : MemoryStore := ⟨[], [atomC8p], []⟩

/-- C9 witness atom. -/
def atomC9 : MemoryAtom := mkAtom "a9" 0.5 .short_term 0 0

/-- C10 witness store: holds a single atom whose id is not the probed
one. -/
def storeC10 : MemoryStore := ⟨[mkAtom "a10" 0.5 .short_term 0 0], [], []⟩

/-! ## Helper lemmas -/

theorem checkTierUpgrade_fields (m : MemoryAtom) :
    (checkTierUpgrade m).confidence = m.confidence ∧
      (checkTierUpgrade m).trigger_count = m.trigger_count ∧
      (checkTierUpgrade m).last_triggered_at = m.last_triggered_at := by
  unfold checkTierUpgrade
  rcases m with ⟨i, ty, co, cf, ti, ca, la, tc, si, tg⟩
  cases ti <;> dsimp only <;> (first | (split <;> simp) | simp)

theorem getById_eq_none {s : MemoryStore} {memoryId : String}
    (h : ∀ m ∈ allAtoms s, m.id ≠ memoryId) : getById s memoryId = none := by
  unfold getById
  refine List.find?_eq_none.mpr fun m hm => ?_
  simpa using h m hm

theorem strengthTrigger_debounce (eng : MemoryStrengthening) (m : MemoryAtom)
    (pm : Bool) (t : ℚ) (h : t - m.last_triggered_at < 3600) :
    strengthTrigger eng m pm t = { m with last_triggered_at := t } := by
  unfold strengthTrigger
  rw [if_pos h]

theorem strengthTrigger_boost (eng : MemoryStrengthening) (m : MemoryAtom)
    (pm : Bool) (t : ℚ) (h : ¬ t - m.last_triggered_at < 3600) :
    strengthTrigger eng m pm t = checkTierUpgrade
      { m with
        confidence := min 1 (m.confidence +
          min ((eng.base_boost + if pm then eng.pattern_boost else 0) *
            (1 / (1 + (m.trigger_count : ℝ) * 0.1))) eng.max_boost)
        trigger_count := m.trigger_count + 1
        last_triggered_at := t } := by
  unfold strengthTrigger
  rw [if_neg h]

theorem calcDecay30 (c : ℝ) (idStr : String) :
    calculateDecay 30 (mkAtom idStr c .short_term 0 0) 2592000 = max 0 (min 1 (c * 0.5)) := by
  have h1 : ((((2592000:ℚ) - (mkAtom idStr c .short_term 0 0).last_triggered_at) / 86400 : ℚ) : ℝ) /
      (((30 / tierDecayFactor (mkAtom idStr c .short_term 0 0).tier : ℚ) : ℚ) : ℝ) = 1 := by
    simp only [mkAtom, tierDecayFactor]
    push_cast
    norm_num
  unfold calculateDecay
  rw [if_neg (by norm_num [mkAtom]), h1, Real.rpow_one]
  rfl

theorem exp_neg_le_one_div_one_add {x : ℝ} (hx : 0 ≤ x) :
    Real.exp (-x) ≤ 1 / (1 + x) := by
  rw [Real.exp_neg, one_div]
  exact inv_anti₀ (by linarith) (by linarith [Real.add_one_le_exp x])

theorem sq_one_sub_half_le_exp_neg {x : ℝ} (hx2 : x ≤ 2) :
    (1 - x / 2) ^ 2 ≤ Real.exp (-x) := by
  have h1 : 1 - x / 2 ≤ Real.exp (-(x / 2)) := by
    linarith [Real.add_one_le_exp (-(x / 2))]
  have h0 : 0 ≤ 1 - x / 2 := by linarith
  have hsplit : Real.exp (-x) = Real.exp (-(x / 2)) * Real.exp (-(x / 2)) := by
    rw [← Real.exp_add]
    ring_nf
  rw [hsplit, pow_two]
  exact mul_le_mul h1 h1 h0 (Real.exp_pos _).le

theorem floor_days_atomC5 : elapsedDaysFloor atomC5.last_triggered_at 3888000 = 45 := by
  unfold elapsedDaysFloor
  rw [show ((3888000 : ℚ) - atomC5.last_triggered_at) / 86400 = 45 by
    norm_num [atomC5, mkAtom]]
  exact_mod_cast Int.floor_intCast (α := ℚ) 45

theorem applyTimeDecay_atomC5 :
    applyTimeDecay atomC5 30 3888000 = 0.4 * Real.exp (-(1.0395 : ℝ)) := by
  unfold applyTimeDecay
  rw [floor_days_atomC5]
  rw [show atomC5.confidence = (0.4 : ℝ) from rfl]
  push_cast
  norm_num

theorem claimDecayed_atomC5 :
    claimDecayedConfidence 30 atomC5 3888000 = 0.4 * Real.exp (-(0.51975 : ℝ)) := by
  unfold claimDecayedConfidence
  rw [floor_days_atomC5]
  rw [show atomC5.confidence = (0.4 : ℝ) from rfl,
    show tierDecayFactor atomC5.tier = (0.5 : ℚ) from rfl]
  push_cast
  norm_num

theorem tierList_setTierList (s : MemoryStore) (t : MemoryTier) (l : List MemoryAtom)
    (u : MemoryTier) : tierList (setTierList s t l) u = if u = t then l else tierList s u := by
  cases t <;> cases u <;> simp [setTierList, tierList]

theorem mem_saveInTier (m : MemoryAtom) (l : List MemoryAtom) : m ∈ saveInTier m l := by
  induction l with
  | nil => simp [saveInTier]
  | cons x rest ih =>
    unfold saveInTier
    split
    · exact List.mem_cons_self _ _
    · exact List.mem_cons_of_mem _ ih

theorem tierHas_storeSave_self (s : MemoryStore) (m : MemoryAtom) :
    tierHas (storeSave s m) m.tier m.id = true := by
  unfold tierHas storeSave
  rw [tierList_setTierList, if_pos rfl, List.any_eq_true]
  exact ⟨m, mem_saveInTier m _, by simp⟩

theorem tierHas_storeSave_other (s : MemoryStore) (m : MemoryAtom) (u : MemoryTier)
    (hu : u ≠ m.tier) (i : String) : tierHas (storeSave s m) u i = tierHas s u i := by
  unfold tierHas storeSave
  rw [tierList_setTierList, if_neg hu]

theorem tierHas_remove_self (s : MemoryStore) (i : String) (t : MemoryTier) :
    tierHas (removeFromTier s i t) t i = false := by
  unfold tierHas removeFromTier
  rw [tierList_setTierList, if_pos rfl, List.any_eq_false]
  intro x hx
  have hne := (List.mem_filter.mp hx).2
  simp only [bne_iff_ne, ne_eq] at hne
  simp [hne]

theorem tierHas_remove_other (s : MemoryStore) (i : String) (t u : MemoryTier)
    (hu : u ≠ t) (j : String) : tierHas (removeFromTier s i t) u j = tierHas s u j := by
  unfold tierHas removeFromTier
  rw [tierList_setTierList, if_neg hu]

theorem tiersContaining_eq_zero {st : MemoryStore} {i : String}
    (h : ∀ t, tierHas st t i = false) : tiersContaining st i = 0 := by
  unfold tiersContaining
  rw [h MemoryTier.short_term, h MemoryTier.working, h MemoryTier.long_term]
  simp

theorem tiersContaining_eq_one {st : MemoryStore} {i : String} (t0 : MemoryTier)
    (h0 : tierHas st t0 i = true) (h : ∀ t, t ≠ t0 → tierHas st t i = false) :
    tiersContaining st i = 1 := by
  cases t0
  case short_term =>
    unfold tiersContaining
    rw [h0, h MemoryTier.working (by decide), h MemoryTier.long_term (by decide)]
    simp
  case working =>
    unfold tiersContaining
    rw [h0, h MemoryTier.short_term (by decide), h MemoryTier.long_term (by decide)]
    simp
  case long_term =>
    unfold tiersContaining
    rw [h0, h MemoryTier.short_term (by decide), h MemoryTier.working (by decide)]
    simp

theorem mem_collectAtoms {opts : QueryOptions} {l : List MemoryAtom} {m : MemoryAtom}
    (hm : m ∈ collectAtoms opts l) : ¬ m.confidence < opts.min_confidence := by
  induction l with
  | nil => simp [collectAtoms] at hm
  | cons x rest ih =>
    simp only [collectAtoms] at hm
    split at hm
    case isTrue => exact ih hm
    case isFalse hconf =>
      split at hm
      case isTrue => exact ih hm
      case isFalse htype =>
        rcases List.mem_cons.mp hm with h | h
        · subst h
          exact hconf
        · exact ih h

theorem mem_scoreMems {h : ℚ} {ctx : Option String} {now : ℚ} {l : List MemoryAtom}
    {sm : ScoredMemory} (hm : sm ∈ scoreMems h ctx now l) : sm.memory ∈ l := by
  induction l with
  | nil => simp [scoreMems] at hm
  | cons x rest ih =>
    simp only [scoreMems] at hm
    split at hm
    case isTrue =>
      rcases List.mem_cons.mp hm with hh | hh
      · subst hh
        exact List.mem_cons_self _ _
      · exact List.mem_cons_of_mem _ (ih hh)
    case isFalse => exact List.mem_cons_of_mem _ (ih hm)

theorem mem_getAllAtoms {s : MemoryStore} {opts : QueryOptions} {m : MemoryAtom}
    (hm : m ∈ getAllAtoms s opts) : ¬ m.confidence < opts.min_confidence := by
  unfold getAllAtoms at hm
  have h1 := List.drop_subset _ _ (List.take_subset _ _ hm)
  exact mem_collectAtoms ((List.perm_insertionSort _ _).mem_iff.mp h1)

theorem collectAtoms_singleton (opts : QueryOptions) (m : MemoryAtom)
    (hconf : ¬ m.confidence < opts.min_confidence)
    (htype : opts.memory_type = none) :
    collectAtoms opts [m] = [m] := by
  unfold collectAtoms
  rw [if_neg hconf, if_neg ?ht]
  case ht =>
    rintro ⟨t, ht, -⟩
    rw [htype] at ht
    exact Option.noConfusion ht
  simp [collectAtoms]

theorem scoreMems_singleton (h : ℚ) (ctx : Option String) (now : ℚ) (m : MemoryAtom)
    (hpos : 0 < calcRelevance h m ctx now) :
    scoreMems h ctx now [m] = [⟨m, calcRelevance h m ctx now⟩] := by
  unfold scoreMems
  rw [if_pos hpos]
  simp [scoreMems]

theorem getAllAtoms_singleton (m : MemoryAtom) (mc : ℝ) (lim3 : ℕ)
    (hconf : ¬ m.confidence < mc) (hlim : 1 ≤ lim3) :
    getAllAtoms ⟨[m], [], []⟩ { min_confidence := mc, limit := lim3 } = [m] := by
  unfold getAllAtoms
  dsimp only
  rw [show allAtoms ⟨[m], [], []⟩ = [m] by simp [allAtoms]]
  rw [collectAtoms_singleton _ m hconf rfl]
  rw [show List.insertionSort (sortRel { min_confidence := mc, limit := lim3 }) [m] = [m]
    by simp [List.insertionSort, List.orderedInsert]]
  rw [List.drop_zero, List.take_of_length_le (by simpa using hlim)]

theorem retrieveRelevant_singleton (m : MemoryAtom) (h : ℚ) (lim : ℕ) (mc : ℝ)
    (ctx : Option String) (now : ℚ)
    (hconf : ¬ m.confidence < mc)
    (hsc : 0 < calcRelevance h m ctx now)
    (hlim : 1 ≤ lim) :
    retrieveRelevant ⟨[m], [], []⟩ h lim mc ctx now =
      ([⟨m, calcRelevance h m ctx now⟩], (storeTrigger ⟨[m], [], []⟩ m.id now).2) := by
  unfold retrieveRelevant
  rw [getAllAtoms_singleton m mc (lim * 3) hconf (by omega)]
  dsimp only
  rw [scoreMems_singleton h ctx now m hsc]
  rw [show List.insertionSort scoreRel [⟨m, calcRelevance h m ctx now⟩] =
    [(⟨m, calcRelevance h m ctx now⟩ : ScoredMemory)]
    by simp [List.insertionSort, List.orderedInsert]]
  rw [List.take_of_length_le (by simpa using hlim)]
  rfl

/-! ## Claim theorems -/

theorem loadValidated_isBad (rs : List RawRecord) :
    isBad (loadValidated rs) = true ↔ ∃ r ∈ rs, isBad (modelValidate r) = true := by
  induction rs with
  | nil => simp [loadValidated, isBad]
  | cons r rest ih =>
    constructor
    · intro h
      simp only [loadValidated] at h
      cases hr : modelValidate r with
      | error e => exact ⟨r, List.mem_cons_self r rest, by rw [hr]; rfl⟩
      | ok m =>
        rw [hr] at h
        cases hl : loadValidated rest with
        | error e =>
          obtain ⟨x, hx, hbad⟩ := ih.mp (by rw [hl]; rfl)
          exact ⟨x, List.mem_cons_of_mem r hx, hbad⟩
        | ok ms =>
          rw [hl] at h
          exact absurd h (by simp [isBad])
    · rintro ⟨x, hx, hbad⟩
      rcases List.mem_cons.mp hx with hxr | hxrest
      · subst hxr
        simp only [loadValidated]
        cases hr : modelValidate x with
        | error e => rfl
        | ok m =>
          rw [hr] at hbad
          exact absurd hbad (by simp [isBad])
      · have hrest : isBad (loadValidated rest) = true := ih.mpr ⟨x, hxrest, hbad⟩
        simp only [loadValidated]
        cases hr : modelValidate r with
        | error e => rfl
        | ok m =>
          cases hl : loadValidated rest with
          | error e => rfl
          | ok ms =>
            rw [hl] at hrest
            exact absurd hrest (by simp [isBad])

theorem getAllRaw_isBad (rs ws ls : List RawRecord) :
    isBad (getAllRaw rs ws ls {}) =
      (isBad (loadValidated rs) || isBad (loadValidated ws) || isBad (loadValidated ls)) := by
  simp only [getAllRaw]
  cases loadValidated rs <;> cases loadValidated ws <;> cases loadValidated ls <;> rfl

/-- Claim C1 is violated by the code: `process_batch` is not idempotent.
`apply_decay` writes the decayed value back into the atom without
touching `last_triggered_at`, so a second call with the same `now`
multiplies by the decay ratio again.  At a full-confidence short-term
atom 30 days after its last trigger (half-life 30 days), the first call
retains it with confidence 0.5; the second call with the identical
`now` decays it to 0.25 - below the 0.3 short-term floor - and moves it
to the removal list, so neither the confidences nor the partition
match. -/
theorem C1_process_batch_decay_compounds :
    (processBatch 30 2592000 [atomC1]).1.map (fun m => m.confidence) = [(0.5 : ℝ)] ∧
      (processBatch 30 2592000 [atomC1]).2 = [] ∧
      (processBatch 30 2592000 ((processBatch 30 2592000 [atomC1]).1)).1 = [] ∧
      (processBatch 30 2592000 ((processBatch 30 2592000 [atomC1]).1)).2.map
        (fun m => m.confidence) = [(0.25 : ℝ)] := by
  rw [show atomC1 = mkAtom "a1" 1 MemoryTier.short_term 0 0 from rfl]
  have hc1 : calculateDecay 30 (mkAtom "a1" 1 MemoryTier.short_term 0 0) 2592000 = 0.5 := by
    rw [calcDecay30]
    norm_num [min_def, max_def]
  have happ1 : applyDecay 30 (mkAtom "a1" 1 MemoryTier.short_term 0 0) 2592000 =
      mkAtom "a1" 0.5 MemoryTier.short_term 0 0 := by
    unfold applyDecay
    rw [hc1]
    rfl
  have hns : ¬ shouldRemove (mkAtom "a1" 0.5 MemoryTier.short_term 0 0) := by
    unfold shouldRemove
    norm_num [mkAtom, minConfidenceThreshold]
  have hfirst : processBatch 30 2592000 [mkAtom "a1" 1 MemoryTier.short_term 0 0] =
      ([mkAtom "a1" 0.5 MemoryTier.short_term 0 0], []) := by
    simp only [processBatch, happ1]
    rw [if_neg hns]
  have hc2 : calculateDecay 30 (mkAtom "a1" 0.5 MemoryTier.short_term 0 0) 2592000 = 0.25 := by
    rw [calcDecay30]
    norm_num [min_def, max_def]
  have happ2 : applyDecay 30 (mkAtom "a1" 0.5 MemoryTier.short_term 0 0) 2592000 =
      mkAtom "a1" 0.25 MemoryTier.short_term 0 0 := by
    unfold applyDecay
    rw [hc2]
    rfl
  have hrs : shouldRemove (mkAtom "a1" 0.25 MemoryTier.short_term 0 0) := by
    unfold shouldRemove
    norm_num [mkAtom, minConfidenceThreshold]
  have hsecond : processBatch 30 2592000 [mkAtom "a1" 0.5 MemoryTier.short_term 0 0] =
      ([], [mkAtom "a1" 0.25 MemoryTier.short_term 0 0]) := by
    simp only [processBatch, happ2]
    rw [if_pos hrs]
  refine ⟨?_, ?_, ?_, ?_⟩
  · rw [hfirst]
    simp [mkAtom]
  · rw [hfirst]
  · rw [hfirst]
    simpa using congrArg Prod.fst hsecond
  · rw [hfirst]
    simp only
    rw [hsecond]
    simp [mkAtom]

/-- Claim C4.  The claim (and the weight table in `retriever.py`) assume
the five memory-type values identity/value/thinking/preference/
communication with the stated weights, but the `MemoryType` enum of
`memory/models.py` carries four entirely different values: none of the
five claimed values is a value of the declared enum.  The weight
assignments of `retriever.py` over its five referenced members are as
the claim states. -/
theorem C4_memory_type_enum_mismatch :
    claimedMemoryTypeValues.filter (fun v => modelsMemoryTypeValues.contains v) = [] ∧
      modelsMemoryTypeValues.length = 4 ∧
      claimedMemoryTypeValues.length = 5 ∧
      typeWeight .identity = 1 ∧ typeWeight .value = 0.95 ∧
      typeWeight .thinking = 0.9 ∧ typeWeight .preference = 0.8 ∧
      typeWeight .communication = 0.7 := by
  refine ⟨by decide, by decide, by decide, ?_, ?_, ?_, ?_, ?_⟩ <;> norm_num [typeWeight]

/-- Counterexample to claim C2: the min-confidence filter of
`get_all` tests the STORED confidence, so an atom whose stored value is
0.5 but whose decayed confidence at the evaluation instant (60 days
inactive, half-life 30) is below the `min_confidence` of 0.3 is still
returned by `retrieve_relevant`. -/
theorem C2_decayed_confidence_below_min_returned :
    (retrieveRelevant storeC2 30 10 0.3 none 5184000).1.map (fun sm => sm.memory.id) =
        ["a2"] ∧
      applyTimeDecay atomC2 30 5184000 < 0.3 := by
  have hconf : ¬ atomC2.confidence < (0.3 : ℝ) := by norm_num [atomC2, mkAtom]
  have hfl : elapsedDaysFloor atomC2.last_triggered_at 5184000 = 60 := by
    unfold elapsedDaysFloor
    rw [show ((5184000 : ℚ) - atomC2.last_triggered_at) / 86400 = 60 by
      norm_num [atomC2, mkAtom]]
    exact_mod_cast Int.floor_intCast (α := ℚ) 60
  have heq : applyTimeDecay atomC2 30 5184000 = 0.5 * Real.exp (-(1.386 : ℝ)) := by
    unfold applyTimeDecay
    rw [hfl, show atomC2.confidence = (0.5 : ℝ) from rfl]
    push_cast
    norm_num
  have hdc : 0 < applyTimeDecay atomC2 30 5184000 := by
    rw [heq]
    positivity
  have hsc : 0 < calcRelevance 30 atomC2 none 5184000 := by
    unfold calcRelevance
    dsimp only
    refine lt_min (by norm_num) ?_
    have h1 : 0 < applyTimeDecay atomC2 30 5184000 * tierWeight atomC2.tier *
        typeWeight atomC2.type := by
      rw [show tierWeight atomC2.tier = (0.5 : ℝ) from rfl,
        show typeWeight atomC2.type = (1.0 : ℝ) from rfl]
      nlinarith
    have h2 : (0:ℝ) ≤ min 0.2 ((atomC2.trigger_count : ℝ) * 0.02) :=
      le_min (by norm_num) (by positivity)
    linarith
  have hdecay : applyTimeDecay atomC2 30 5184000 < 0.3 := by
    rw [heq]
    calc (0.5 : ℝ) * Real.exp (-(1.386 : ℝ))
        ≤ 0.5 * (1 / (1 + 1.386)) := by
          exact mul_le_mul_of_nonneg_left (exp_neg_le_one_div_one_add (by norm_num))
            (by norm_num)
      _ < 0.3 := by norm_num
  refine ⟨?_, hdecay⟩
  rw [show storeC2 = (⟨[atomC2], [], []⟩ : MemoryStore) from rfl,
    retrieveRelevant_singleton atomC2 30 10 0.3 none 5184000 hconf hsc (by norm_num)]
  rfl

/-- Claim C2 amended: `retrieve_relevant(limit, min_confidence,
context?)` returns at most `limit` items and every returned item's
STORED confidence is at least `min_confidence` (the filter happens
before decay; the decayed confidence can be below `min_confidence`). -/
theorem C2_retrieve_length_and_stored_confidence (s : MemoryStore) (halfLifeDays : ℚ)
    (limit : ℕ) (minConfidence : ℝ) (context : Option String) (now : ℚ) :
    (retrieveRelevant s halfLifeDays limit minConfidence context now).1.length ≤ limit ∧
      ∀ sm ∈ (retrieveRelevant s halfLifeDays limit minConfidence context now).1,
        minConfidence ≤ sm.memory.confidence := by
  constructor
  · unfold retrieveRelevant
    dsimp only
    rw [List.length_take]
    exact min_le_left _ _
  · intro sm hsm
    unfold retrieveRelevant at hsm
    dsimp only at hsm
    have h1 := (List.perm_insertionSort scoreRel _).mem_iff.mp (List.take_subset _ _ hsm)
    have h2 := mem_scoreMems h1
    exact not_lt.mp (mem_getAllAtoms h2)

/-- Witness for C2 (amended) at a concrete store, limit and
threshold. -/
theorem C2_retrieve_length_and_stored_confidence_witness :
    (retrieveRelevant storeC2 30 10 0.3 none 5184000).1.length ≤ 10 ∧
      ∀ sm ∈ (retrieveRelevant storeC2 30 10 0.3 none 5184000).1,
        (0.3 : ℝ) ≤ sm.memory.confidence :=
  C2_retrieve_length_and_stored_confidence storeC2 30 10 0.3 none 5184000

/-- Counterexample to claim C3: a selected atom is passed to
`MemoryStore.trigger`, not `StrengtheningEngine.trigger`.  After a
retrieval that selects the atom (outside any debounce window), its
stored confidence is unchanged at 0.5 and its trigger_count is 1,
whereas `StrengtheningEngine.trigger` at the same instant would have
raised the confidence to 0.55: the full strengthening semantics
(debounce, boost, promotion check) is never applied on the retrieval
path. -/
theorem C3_selected_atom_not_strengthened :
    (retrieveRelevant storeC3 30 10 0.3 none 7200).1.map (fun sm => sm.memory.id) =
        ["a3"] ∧
      (getById (retrieveRelevant storeC3 30 10 0.3 none 7200).2 "a3").map
        (fun m => m.confidence) = some 0.5 ∧
      (getById (retrieveRelevant storeC3 30 10 0.3 none 7200).2 "a3").map
        (fun m => m.trigger_count) = some 1 ∧
      (strengthTrigger defaultStrengthening atomC3 false 7200).confidence = 0.55 := by
  have hconf : ¬ atomC3.confidence < (0.3 : ℝ) := by norm_num [atomC3, mkAtom]
  have hfl : elapsedDaysFloor atomC3.last_triggered_at 7200 = 0 := by
    unfold elapsedDaysFloor
    rw [show ((7200 : ℚ) - atomC3.last_triggered_at) / 86400 = 1 / 12 by
      norm_num [atomC3, mkAtom]]
    rw [Int.floor_eq_zero_iff.mpr]
    rw [Set.mem_Ico]
    constructor <;> norm_num
  have heq : applyTimeDecay atomC3 30 7200 = 0.5 * Real.exp 0 := by
    unfold applyTimeDecay
    rw [hfl, show atomC3.confidence = (0.5 : ℝ) from rfl]
    push_cast
    norm_num
  have hdc : 0 < applyTimeDecay atomC3 30 7200 := by
    rw [heq]
    positivity
  have hsc : 0 < calcRelevance 30 atomC3 none 7200 := by
    unfold calcRelevance
    dsimp only
    refine lt_min (by norm_num) ?_
    have h1 : 0 < applyTimeDecay atomC3 30 7200 * tierWeight atomC3.tier *
        typeWeight atomC3.type := by
      rw [show tierWeight atomC3.tier = (0.5 : ℝ) from rfl,
        show typeWeight atomC3.type = (1.0 : ℝ) from rfl]
      nlinarith
    have h2 : (0:ℝ) ≤ min 0.2 ((atomC3.trigger_count : ℝ) * 0.02) :=
      le_min (by norm_num) (by positivity)
    linarith
  have hret := retrieveRelevant_singleton atomC3 30 10 0.3 none 7200 hconf hsc (by norm_num)
  rw [show storeC3 = (⟨[atomC3], [], []⟩ : MemoryStore) from rfl, hret]
  refine ⟨rfl, ?_, ?_, ?_⟩
  · with_unfolding_all rfl
  · with_unfolding_all rfl
  · have hn : ¬ ((7200 : ℚ) - atomC3.last_triggered_at < 3600) := by
      norm_num [atomC3, mkAtom]
    rw [strengthTrigger_boost _ _ _ _ hn, (checkTierUpgrade_fields _).1]
    norm_num [atomC3, mkAtom, defaultStrengthening, min_def]

/-- Claim C3 amended: every atom returned by `retrieve_relevant` is
passed to `MemoryStore.trigger` (the store after retrieval is exactly
the fold of `store.trigger` over the selection), and `store.trigger`
only increments `trigger_count` and refreshes `last_triggered_at` on
the stored atom - it applies no debounce check, no confidence boost and
no promotion check (`StrengtheningEngine.trigger` is never invoked on
this path). -/
theorem C3_store_trigger_only_bookkeeping (s : MemoryStore) (halfLifeDays : ℚ)
    (limit : ℕ) (minConfidence : ℝ) (context : Option String) (now : ℚ) :
    ((retrieveRelevant s halfLifeDays limit minConfidence context now).2 =
      ((retrieveRelevant s halfLifeDays limit minConfidence context now).1).foldl
        (fun st sm => (storeTrigger st sm.memory.id now).2) s) ∧
      ∀ (st : MemoryStore) (memoryId : String) (t : ℚ) (a : MemoryAtom),
        getById st memoryId = some a →
        (storeTrigger st memoryId t).1 =
            some { a with
              trigger_count := a.trigger_count + 1
              last_triggered_at := t } ∧
          (storeTrigger st memoryId t).2 =
            storeSave st { a with
              trigger_count := a.trigger_count + 1
              last_triggered_at := t } := by
  constructor
  · rfl
  · intro st memoryId t a ha
    unfold storeTrigger
    rw [ha]
    exact ⟨rfl, rfl⟩

/-- Witness for C3 (amended) at a concrete store: the looked-up atom
exists and `store.trigger` yields exactly the bookkeeping update. -/
theorem C3_store_trigger_only_bookkeeping_witness :
    getById storeC3 "a3" = some atomC3 ∧
      (storeTrigger storeC3 "a3" 7200).1 =
        some { atomC3 with
          trigger_count := atomC3.trigger_count + 1
          last_triggered_at := 7200 } ∧
      (storeTrigger storeC3 "a3" 7200).2 =
        storeSave storeC3 { atomC3 with
          trigger_count := atomC3.trigger_count + 1
          last_triggered_at := 7200 } := by
  have hg : getById storeC3 "a3" = some atomC3 := by with_unfolding_all rfl
  have hx := (C3_store_trigger_only_bookkeeping storeC3 30 10 0.3 none 7200).2
    storeC3 "a3" 7200 atomC3 hg
  exact ⟨hg, hx.1, hx.2⟩

/-- Counterexample to claim C5: at a working-tier atom with stored
confidence 0.4 that has been inactive for 45 days (half-life 30 days),
`TierManager.check_delete` deletes - its decayed confidence
`0.4*exp(-0.693*45/30) < 0.2` because `apply_time_decay` uses the plain
half-life - while the claimed rule does not, since with the
tier-adjusted half-life 30/0.5 = 60 the decayed confidence
`0.4*exp(-0.693*45/60)` stays at or above the 0.2 floor. -/
theorem C5_delete_ignores_tier_factor :
    checkDelete 30 atomC5 3888000 ∧ ¬ claimCheckDelete 30 atomC5 3888000 := by
  have hcode : applyTimeDecay atomC5 30 3888000 < 0.2 := by
    rw [applyTimeDecay_atomC5]
    calc (0.4 : ℝ) * Real.exp (-(1.0395 : ℝ))
        ≤ 0.4 * (1 / (1 + 1.0395)) := by
          exact mul_le_mul_of_nonneg_left (exp_neg_le_one_div_one_add (by norm_num))
            (by norm_num)
      _ < 0.2 := by norm_num
  have hclaim : (0.2 : ℝ) ≤ claimDecayedConfidence 30 atomC5 3888000 := by
    rw [claimDecayed_atomC5]
    calc (0.2 : ℝ) ≤ 0.4 * ((1 - 0.51975 / 2) ^ 2) := by norm_num
      _ ≤ 0.4 * Real.exp (-(0.51975 : ℝ)) := by
          exact mul_le_mul_of_nonneg_left (sq_one_sub_half_le_exp_neg (by norm_num))
            (by norm_num)
  constructor
  · unfold checkDelete
    rw [if_neg (by rw [show deleteMaxConfidence atomC5.tier = (0.2:ℝ) from rfl]; exact not_le.mpr hcode)]
    rw [if_neg (by rw [floor_days_atomC5, show deleteInactiveDays atomC5.tier = (14:ℤ) from rfl]; decide)]
    trivial
  · intro h
    exact absurd h.1 (not_lt.mpr hclaim)

/-- Claim C5 amended: `TierManager.check_delete` deletes exactly when
the decayed confidence computed by `confidence.apply_time_decay` with
the PLAIN configured half-life (no tier factor is applied at this call
site) is below the tier floor and the integer days of inactivity reach
the tier window. -/
theorem C5_check_delete_iff_plain_half_life (halfLifeDays : ℚ) (m : MemoryAtom) (now : ℚ) :
    checkDelete halfLifeDays m now ↔
      (applyTimeDecay m halfLifeDays now < deleteMaxConfidence m.tier ∧
        deleteInactiveDays m.tier ≤ elapsedDaysFloor m.last_triggered_at now) := by
  unfold checkDelete
  by_cases h1 : applyTimeDecay m halfLifeDays now ≥ deleteMaxConfidence m.tier
  · rw [if_pos h1]
    simp only [false_iff, not_and]
    intro hlt
    exact absurd hlt (not_lt.mpr h1)
  · rw [if_neg h1]
    by_cases h2 : elapsedDaysFloor m.last_triggered_at now < deleteInactiveDays m.tier
    · rw [if_pos h2]
      simp only [false_iff, not_and]
      intro _
      exact not_le.mpr h2
    · rw [if_neg h2]
      simp only [true_iff]
      exact ⟨not_le.mp h1, not_lt.mp h2⟩

/-- Counterexample to claim C7: with one malformed record (confidence
1.5) between two well-formed ones in the short-term file, `get_all`
raises the validation error and returns nothing - the two well-formed
records are not processed and no per-record `StorageError` isolation
happens. -/
theorem C7_malformed_record_aborts_get_all :
    getAllRaw [rawGood "g1", rawBad, rawGood "g2"] [] [] {} =
        Except.error "confidence out of range" ∧
      isBad (modelValidate (rawGood "g1")) = false ∧
      isBad (modelValidate (rawGood "g2")) = false := by
  refine ⟨by with_unfolding_all rfl, by with_unfolding_all rfl, by with_unfolding_all rfl⟩

/-- Claim C7 amended: a batch load (`MemoryStore.get_all` with default
options) raises if and only if SOME loaded record fails validation; the
failure aborts the entire operation instead of excluding the record and
processing the rest. -/
theorem C7_get_all_errors_iff_any_invalid (rs ws ls : List RawRecord) :
    isBad (getAllRaw rs ws ls {}) = true ↔
      ∃ r ∈ rs ++ ws ++ ls, isBad (modelValidate r) = true := by
  rw [getAllRaw_isBad]
  simp only [Bool.or_eq_true, loadValidated_isBad, List.mem_append]
  constructor
  · rintro ((⟨r, hr, hb⟩ | ⟨r, hr, hb⟩) | ⟨r, hr, hb⟩)
    · exact ⟨r, Or.inl (Or.inl hr), hb⟩
    · exact ⟨r, Or.inl (Or.inr hr), hb⟩
    · exact ⟨r, Or.inr hr, hb⟩
  · rintro ⟨r, (hr | hr) | hr, hb⟩
    · exact Or.inl (Or.inl ⟨r, hr, hb⟩)
    · exact Or.inl (Or.inr ⟨r, hr, hb⟩)
    · exact Or.inr ⟨r, hr, hb⟩

/-- Counterexample to claim C8: promoting the only short-term atom to
working via the remove-then-save sequence of `MemoryStore.update`
passes through an on-disk state in which the atom is present in NO tier
collection - an interruption there loses the atom. -/
theorem C8_promotion_intermediate_state_loses_atom :
    updateStates storeC8 atomC8p MemoryTier.short_term = [storeC8, storeC8mid, storeC8fin] ∧
      tiersContaining storeC8 "a8" = 1 ∧
      tiersContaining storeC8mid "a8" = 0 := by
  refine ⟨by with_unfolding_all rfl, by with_unfolding_all rfl, by with_unfolding_all rfl⟩

/-- Claim C8 amended: along `MemoryStore.update`'s remove-then-save
promotion sequence the atom indeed never appears in two tier
collections at once, but the intermediate state (after the removal
write, before the save write) holds it in NO tier collection, so an
interruption mid-relocation loses the atom; the final state holds it in
exactly one. -/
theorem C8_promotion_never_two_tiers_but_gap (s : MemoryStore) (m : MemoryAtom)
    (oldTier : MemoryTier)
    (hold : tierHas s oldTier m.id = true)
    (hothers : ∀ t, t ≠ oldTier → tierHas s t m.id = false)
    (hmove : m.tier ≠ oldTier) :
    (∀ st ∈ updateStates s m oldTier, tiersContaining st m.id ≤ 1) ∧
      tiersContaining (removeFromTier s m.id oldTier) m.id = 0 ∧
      tiersContaining (storeSave (removeFromTier s m.id oldTier) m) m.id = 1 := by
  have hmid : ∀ t, tierHas (removeFromTier s m.id oldTier) t m.id = false := by
    intro t
    by_cases ht : t = oldTier
    · subst ht
      exact tierHas_remove_self s m.id t
    · rw [tierHas_remove_other s m.id oldTier t ht]
      exact hothers t ht
  have hmid0 : tiersContaining (removeFromTier s m.id oldTier) m.id = 0 :=
    tiersContaining_eq_zero hmid
  have hfin1 : tiersContaining (storeSave (removeFromTier s m.id oldTier) m) m.id = 1 := by
    refine tiersContaining_eq_one m.tier (tierHas_storeSave_self _ m) fun t ht => ?_
    rw [tierHas_storeSave_other _ m t ht]
    exact hmid t
  have hinit1 : tiersContaining s m.id = 1 := tiersContaining_eq_one oldTier hold hothers
  refine ⟨?_, hmid0, hfin1⟩
  intro st hst
  simp only [updateStates, List.mem_cons, List.mem_singleton, List.not_mem_nil,
    or_false] at hst
  rcases hst with h | h | h <;> subst h
  · rw [hinit1]
  · rw [hmid0]
    norm_num
  · rw [hfin1]

/-- Witness for C8 at the concrete one-atom store: the hypotheses hold
and the promotion sequence shows counts 1 (initial), 0 (between the two
writes) and 1 (final). -/
theorem C8_promotion_never_two_tiers_but_gap_witness :
    tierHas storeC8 MemoryTier.short_term atomC8p.id = true ∧
      atomC8p.tier ≠ MemoryTier.short_term ∧
      ((∀ st ∈ updateStates storeC8 atomC8p MemoryTier.short_term,
          tiersContaining st atomC8p.id ≤ 1) ∧
        tiersContaining (removeFromTier storeC8 atomC8p.id MemoryTier.short_term)
          atomC8p.id = 0 ∧
        tiersContaining (storeSave (removeFromTier storeC8 atomC8p.id
          MemoryTier.short_term) atomC8p) atomC8p.id = 1) := by
  have hold : tierHas storeC8 MemoryTier.short_term atomC8p.id = true := by
    with_unfolding_all rfl
  have hothers : ∀ t, t ≠ MemoryTier.short_term → tierHas storeC8 t atomC8p.id = false := by
    intro t ht
    cases t
    · exact absurd rfl ht
    · with_unfolding_all rfl
    · with_unfolding_all rfl
  have hmove : atomC8p.tier ≠ MemoryTier.short_term := by
    rw [show atomC8p.tier = MemoryTier.working from rfl]
    decide
  exact ⟨hold, hmove,
    C8_promotion_never_two_tiers_but_gap storeC8 atomC8p MemoryTier.short_term
      hold hothers hmove⟩

/-- Claim C10: `MemoryStore.trigger` on an id present in no tier
collection returns `None`, raises nothing, and leaves every tier
collection unchanged. -/
theorem C10_trigger_missing_id_noop (s : MemoryStore) (memoryId : String) (now : ℚ)
    (h : ∀ m ∈ allAtoms s, m.id ≠ memoryId) :
    storeTrigger s memoryId now = (none, s) := by
  unfold storeTrigger
  rw [getById_eq_none h]

/-- Witness for C10 at a concrete store and missing id. -/
theorem C10_trigger_missing_id_noop_witness :
    (∀ m ∈ allAtoms storeC10, m.id ≠ "zzz") ∧
      storeTrigger storeC10 "zzz" 5 = (none, storeC10) := by
  have hh : ∀ m ∈ allAtoms storeC10, m.id ≠ "zzz" := by
    intro m hm
    simp only [storeC10, allAtoms, List.append_nil, List.mem_singleton] at hm
    subst hm
    decide
  exact ⟨hh, C10_trigger_missing_id_noop storeC10 "zzz" 5 hh⟩

/-- Claim C9: starting from confidence in [0,1], any decay
(`calculate_decay` / `apply_decay`, any reference time) and any
strengthening (`trigger`, any arguments) leaves confidence in [0,1]. -/
theorem C9_confidence_in_unit_interval (halfLifeDays : ℚ) (m : MemoryAtom)
    (ref : ℚ) (pm : Bool) (t : ℚ)
    (h0 : 0 ≤ m.confidence) (h1 : m.confidence ≤ 1) :
    (0 ≤ calculateDecay halfLifeDays m ref ∧ calculateDecay halfLifeDays m ref ≤ 1) ∧
      (0 ≤ (applyDecay halfLifeDays m ref).confidence ∧
        (applyDecay halfLifeDays m ref).confidence ≤ 1) ∧
      (0 ≤ (strengthTrigger defaultStrengthening m pm t).confidence ∧
        (strengthTrigger defaultStrengthening m pm t).confidence ≤ 1) := by
  have hdec : 0 ≤ calculateDecay halfLifeDays m ref ∧
      calculateDecay halfLifeDays m ref ≤ 1 := by
    unfold calculateDecay
    split
    · exact ⟨h0, h1⟩
    · exact ⟨le_max_left 0 _, max_le (by norm_num) (min_le_left 1 _)⟩
  refine ⟨hdec, by simpa [applyDecay] using hdec, ?_⟩
  by_cases hd : t - m.last_triggered_at < 3600
  · rw [strengthTrigger_debounce _ _ _ _ hd]
    exact ⟨h0, h1⟩
  · rw [strengthTrigger_boost _ _ _ _ hd, (checkTierUpgrade_fields _).1]
    have hb0 : (0:ℝ) ≤ defaultStrengthening.base_boost +
        (if pm then defaultStrengthening.pattern_boost else 0) := by
      cases pm <;> norm_num [defaultStrengthening]
    have hdim : (0:ℝ) ≤ 1 / (1 + (m.trigger_count : ℝ) * 0.1) := by positivity
    have hboost : (0:ℝ) ≤ min ((defaultStrengthening.base_boost +
        if pm then defaultStrengthening.pattern_boost else 0) *
        (1 / (1 + (m.trigger_count : ℝ) * 0.1))) defaultStrengthening.max_boost :=
      le_min (mul_nonneg hb0 hdim) (by norm_num [defaultStrengthening])
    exact ⟨le_min (by norm_num) (by linarith), min_le_left 1 _⟩

/-- Witness for C9 at a concrete atom, reference time and trigger. -/
theorem C9_confidence_in_unit_interval_witness :
    (0 ≤ atomC9.confidence ∧ atomC9.confidence ≤ 1) ∧
      ((0 ≤ calculateDecay 30 atomC9 864000 ∧ calculateDecay 30 atomC9 864000 ≤ 1) ∧
        (0 ≤ (applyDecay 30 atomC9 864000).confidence ∧
          (applyDecay 30 atomC9 864000).confidence ≤ 1) ∧
        (0 ≤ (strengthTrigger defaultStrengthening atomC9 false 7200).confidence ∧
          (strengthTrigger defaultStrengthening atomC9 false 7200).confidence ≤ 1)) := by
  have h0 : 0 ≤ atomC9.confidence := by norm_num [atomC9, mkAtom]
  have h1 : atomC9.confidence ≤ 1 := by norm_num [atomC9, mkAtom]
  exact ⟨⟨h0, h1⟩, C9_confidence_in_unit_interval 30 atomC9 864000 false 7200 h0 h1⟩

/-- Claim C6: `StrengtheningEngine.trigger` with the default tunables -
inside the one-hour debounce window only `last_triggered_at` moves;
otherwise confidence gains `min(0.15, (0.05 + 0.1*[pattern]) /
(1 + trigger_count*0.1))` capped at 1, `trigger_count` increments, and
`last_triggered_at` becomes the trigger time. -/
theorem C6_strengthening_trigger_semantics (m : MemoryAtom) (pm : Bool) (t : ℚ) :
    (t - m.last_triggered_at < 3600 →
      strengthTrigger defaultStrengthening m pm t = { m with last_triggered_at := t }) ∧
      (¬ t - m.last_triggered_at < 3600 →
        (strengthTrigger defaultStrengthening m pm t).confidence =
          min 1 (m.confidence + min 0.15 ((0.05 + if pm then 0.1 else 0) *
            (1 / (1 + (m.trigger_count : ℝ) * 0.1)))) ∧
        (strengthTrigger defaultStrengthening m pm t).trigger_count = m.trigger_count + 1 ∧
        (strengthTrigger defaultStrengthening m pm t).last_triggered_at = t) := by
  constructor
  · exact strengthTrigger_debounce defaultStrengthening m pm t
  · intro h
    rw [strengthTrigger_boost defaultStrengthening m pm t h]
    obtain ⟨e1, e2, e3⟩ := checkTierUpgrade_fields
      { m with
        confidence := min 1 (m.confidence +
          min ((defaultStrengthening.base_boost +
            if pm then defaultStrengthening.pattern_boost else 0) *
            (1 / (1 + (m.trigger_count : ℝ) * 0.1))) defaultStrengthening.max_boost)
        trigger_count := m.trigger_count + 1
        last_triggered_at := t }
    rw [e1, e2, e3]
    refine ⟨?_, rfl, rfl⟩
    simp only [defaultStrengthening, min_comm]

/-- Witness for C6: the scenario of the specification - confidence 0.5,
trigger_count 0, no pattern match, outside the debounce window - yields
confidence 0.55 and trigger_count 1. -/
theorem C6_strengthening_trigger_semantics_witness :
    ¬ ((7200 : ℚ) - atomC6.last_triggered_at < 3600) ∧
      (strengthTrigger defaultStrengthening atomC6 false 7200).confidence = 0.55 ∧
      (strengthTrigger defaultStrengthening atomC6 false 7200).trigger_count = 1 := by
  have hn : ¬ ((7200 : ℚ) - atomC6.last_triggered_at < 3600) := by
    norm_num [atomC6, mkAtom]
  obtain ⟨hc, ht, -⟩ := (C6_strengthening_trigger_semantics atomC6 false 7200).2 hn
  refine ⟨hn, ?_, ?_⟩
  · rw [hc]
    norm_num [atomC6, mkAtom, min_def]
  · rw [ht]
    norm_num [atomC6, mkAtom]

end AsMe
